import Mathlib

/-!
Verification development for the deepseek-r1-edge stream-to-batch relay.

The handler under study is `onRequest` in
`functions/v1/chat/completions/index.ts` (and its twin `onRequestPost` in
`_functions/chat.ts`).  It forwards a POST to a fixed upstream URL, reads
the upstream body chunk by chunk, splits each decoded chunk on newline,
parses every line starting with the literal prefix separator for SSE data
records, appends `choices[0].delta.content` to an accumulator when that
chain is truthy, and finally returns a fixed OpenAI-style JSON envelope.

We embed the handler shallowly: the upstream byte stream is presented as
the list of decoded texts returned by successive reads, platform
functions (`JSON.parse`, `String.prototype.trim`, `Headers.get`,
truthiness, string coercion) are modelled explicitly below, and the
ambient effects (`fetch`, `crypto.randomUUID`, `Date.now`) are passed in
through an explicit `World` record.
-/

/-- A JSON number literal as scanned (sign, integer digits, fraction
digits, exponent): `JSON.parse` converts it to a binary64 double, which
`jsNumberValue` below computes exactly. -/
structure JsNumber where
  neg : Bool
  intDigits : List Char
  fracDigits : List Char
  expNeg : Bool
  expDigits : List Char
deriving Repr, DecidableEq

/-- A JavaScript string is a finite sequence of UTF-16 code units — not
of Unicode scalar values: `JSON.parse` keeps lone `\uXXXX` surrogates as
code units, and indexing works on units.  We therefore model every JS
string that flows through `JSON.parse`, the accumulator and the envelope
as a `List UInt16`. -/
inductive JsValue where
  | null : JsValue
  | bool (b : Bool) : JsValue
  | num (n : JsNumber) : JsValue
  | str (units : List UInt16) : JsValue
  | arr (elems : List JsValue) : JsValue
  | obj (fields : List (List UInt16 × JsValue)) : JsValue
deriving Repr

/-- The UTF-16 encoding of one Unicode scalar value: one unit for the
BMP, a surrogate pair above it. -/
def charUnits (c : Char) : List UInt16 :=
  if c.toNat < 65536 then [UInt16.ofNat c.toNat]
  else
    let v := c.toNat - 65536
    [UInt16.ofNat (55296 + v / 1024), UInt16.ofNat (56320 + v % 1024)]

/-- The UTF-16 code-unit sequence of a Lean string.  Lean strings are
sequences of scalar values, which is exactly what `TextDecoder` emits,
so this encoding is the JS string those characters become. -/
def utf16 (s : String) : List UInt16 :=
  (s.data.map charUnits).flatten

/-- Left and right brace characters, named once to keep the JSON scanner
readable. -/
def braceOpen : Char := Char.ofNat 123

def braceClose : Char := Char.ofNat 125

/-- JSON whitespace (RFC 8259): space, tab, line feed, carriage return. -/
def jsonWs (c : Char) : Bool :=
  c = ' ' || c = '\t' || c = '\n' || c = '\r'

def skipWs : List Char → List Char
  | [] => []
  | c :: cs => if jsonWs c then skipWs cs else c :: cs

def hexDigit (c : Char) : Option Nat :=
  if '0' ≤ c && c ≤ '9' then some (c.toNat - 48)
  else if 'a' ≤ c && c ≤ 'f' then some (c.toNat - 87)
  else if 'A' ≤ c && c ≤ 'F' then some (c.toNat - 55)
  else none

/-- Body of a JSON string literal, after the opening quote: returns the
resulting JS string as UTF-16 code units and the input remaining after
the closing quote.  Handles the JSON escapes and rejects unescaped
control characters.  A `\uXXXX` escape contributes exactly that code
unit — surrogate halves included, paired or not, just as `JSON.parse`
stores them — and an ordinary character contributes its UTF-16
encoding.  Fuel bounds the recursion; one unit per consumed character
suffices. -/
def parseStringBody : Nat → List Char → Option (List UInt16 × List Char)
  | 0, _ => none
  | Nat.succ fuel, cs =>
    match cs with
    | [] => none
    | c :: rest =>
      if c = '"' then some ([], rest)
      else if c = '\\' then
        match rest with
        | [] => none
        | e :: rest2 =>
          let simple : Option Char :=
            if e = '"' then some '"'
            else if e = '\\' then some '\\'
            else if e = '/' then some '/'
            else if e = 'b' then some (Char.ofNat 8)
            else if e = 'f' then some (Char.ofNat 12)
            else if e = 'n' then some '\n'
            else if e = 'r' then some '\r'
            else if e = 't' then some '\t'
            else none
          match simple with
          | some ch =>
            match parseStringBody fuel rest2 with
            | some (body, rem) => some (UInt16.ofNat ch.toNat :: body, rem)
            | none => none
          | none =>
            if e = 'u' then
              match rest2 with
              | h1 :: h2 :: h3 :: h4 :: rest3 =>
                match hexDigit h1, hexDigit h2, hexDigit h3, hexDigit h4 with
                | some a, some b, some c3, some d =>
                  let n := ((a * 16 + b) * 16 + c3) * 16 + d
                  match parseStringBody fuel rest3 with
                  | some (body, rem) => some (UInt16.ofNat n :: body, rem)
                  | none => none
                | _, _, _, _ => none
              | _ => none
            else none
      else if c.toNat < 32 then none
      else
        match parseStringBody fuel rest with
        | some (body, rem) => some (charUnits c ++ body, rem)
        | none => none

/-- One JSON number literal: `-? (0 | [1-9][0-9]*) (.[0-9]+)? ([eE][+-]?[0-9]+)?`. -/
def parseNumberLit (cs : List Char) : Option (JsNumber × List Char) :=
  let (neg, cs1) :=
    match cs with
    | '-' :: r => (true, r)
    | _ => (false, cs)
  match cs1 with
  | [] => none
  | c :: _ =>
    if ¬ c.isDigit then none
    else
      let intDigits := cs1.takeWhile Char.isDigit
      let rest1 := cs1.dropWhile Char.isDigit
      -- "0" followed by more digits is not rejected here; the leftover digit
      -- then fails to match the next expected token, as in JSON.parse
      let intDigits := if c = '0' then ['0'] else intDigits
      let rest1 := if c = '0' then cs1.drop 1 else rest1
      let (fracDigits, rest2) :=
        match rest1 with
        | '.' :: r =>
          let ds := r.takeWhile Char.isDigit
          (ds, r.dropWhile Char.isDigit)
        | _ => ([], rest1)
      match rest1 with
      | '.' :: r =>
        if (r.takeWhile Char.isDigit).isEmpty then none
        else parseNumberExp neg intDigits fracDigits rest2
      | _ => parseNumberExp neg intDigits fracDigits rest2
where
  parseNumberExp (neg : Bool) (intDigits fracDigits : List Char) (rest : List Char) :
      Option (JsNumber × List Char) :=
    match rest with
    | c :: r =>
      if c = 'e' || c = 'E' then
        let (expNeg, r2) :=
          match r with
          | '+' :: r3 => (false, r3)
          | '-' :: r3 => (true, r3)
          | _ => (false, r)
        let ds := r2.takeWhile Char.isDigit
        if ds.isEmpty then none
        else some (⟨neg, intDigits, fracDigits, expNeg, ds⟩, r2.dropWhile Char.isDigit)
      else some (⟨neg, intDigits, fracDigits, false, []⟩, rest)
    | [] => some (⟨neg, intDigits, fracDigits, false, []⟩, [])

/-- The IEEE-754 binary64 value a JSON number denotes, sign apart:
zero, infinity, or `m * 2 ^ q` with `2 ^ 52 ≤ m < 2 ^ 53` (normal) or
`0 < m < 2 ^ 52` and `q = -1074` (subnormal). -/
inductive Binary64 where
  | zero : Binary64
  | finite (m : Nat) (q : Int) : Binary64
  | infinite : Binary64
deriving Repr, DecidableEq

/-- Tail-recursive power, used instead of `HPow` so that evaluation
inside `decide` proofs proceeds one multiplication at a time. -/
def powTail (b : Nat) : Nat → Nat → Nat
  | 0, acc => acc
  | Nat.succ k, acc => powTail b k (acc * b)

def natPow (b k : Nat) : Nat := powTail b k 1

/-- Bit length of a natural number, by a fuel-driven tail-recursive
loop (`fuel = n` always suffices). -/
def natBits : Nat → Nat → Nat → Nat
  | 0, _, acc => acc
  | Nat.succ fuel, n, acc => if n = 0 then acc else natBits fuel (n / 2) (acc + 1)

def bitLen (n : Nat) : Nat := natBits n n 0

/-- Whether `A / B ≥ 2 ^ e` for positive naturals, by exact cross
multiplication. -/
def ratGE (A B : Nat) (e : Int) : Bool :=
  if e ≥ 0 then A ≥ B * natPow 2 e.toNat else A * natPow 2 (-e).toNat ≥ B

/-- `⌊log2 (A / B)⌋` for positive naturals: the bit-length difference is
off by at most one, fixed by one exact comparison. -/
def ratLog2 (A B : Nat) : Int :=
  let d : Int := (bitLen A : Int) - (bitLen B : Int)
  if ratGE A B d then d else d - 1

/-- Round the positive rational `A / B` to the nearest binary64, ties to
even, with underflow to zero and overflow to infinity — exactly what
`JSON.parse` does to a number literal. -/
def roundPosRat (A B : Nat) : Binary64 :=
  if A = 0 then .zero
  else
    let e2 := ratLog2 A B
    let s : Int := if e2 - 52 < -1074 then -1074 else e2 - 52
    let num := if s ≥ 0 then A else A * natPow 2 (-s).toNat
    let den := if s ≥ 0 then B * natPow 2 s.toNat else B
    let m0 := num / den
    let r := num % den
    let m1 :=
      if 2 * r > den then m0 + 1
      else if 2 * r = den then (if m0 % 2 = 0 then m0 else m0 + 1)
      else m0
    let m2 := if m1 = natPow 2 53 then natPow 2 52 else m1
    let s2 := if m1 = natPow 2 53 then s + 1 else s
    if m2 = 0 then .zero
    else if s2 > 971 then .infinite
    else .finite m2 s2

def digitsToNat (ds : List Char) : Nat :=
  ds.foldl (fun acc c => acc * 10 + (c.toNat - 48)) 0

/-- The binary64 magnitude of a parsed JSON number literal: the exact
decimal `D * 10 ^ E` correctly rounded. -/
def jsNumberValue (n : JsNumber) : Binary64 :=
  let D := digitsToNat (n.intDigits ++ n.fracDigits)
  let e : Int :=
    (if n.expNeg then -(digitsToNat n.expDigits : Int) else (digitsToNat n.expDigits : Int)) -
      (n.fracDigits.length : Int)
  if D = 0 then .zero
  else if e ≥ 0 then roundPosRat (D * natPow 10 e.toNat) 1
  else roundPosRat D (natPow 10 (-e).toNat)

/-- Scaling phase of the shortest-representation search: grow `S` (or
`X` and the margins) by tens until the value sits just below one, so
digit generation emits at most one leading zero and never a digit above
nine.  `n` tracks the decimal exponent. -/
def dragonScale : Nat → Nat → Nat → Nat → Nat → Int → Bool → Nat × Nat × Nat × Nat × Int
  | 0, X, mp, mm, S, n, _ => (X, mp, mm, S, n)
  | Nat.succ fuel, X, mp, mm, S, n, inclusive =>
    if (if inclusive then X + mp ≥ S else X + mp > S) then
      dragonScale fuel X mp mm (S * 10) (n + 1) inclusive
    else if (X + mp) * 10 < S then
      dragonScale fuel (X * 10) (mp * 10) (mm * 10) S (n - 1) inclusive
    else (X, mp, mm, S, n)

/-- Digit generation for the shortest decimal representation
(Steele-White / Burger-Dybvig): emit digits of `R / S` until rounding
down (remainder below the low margin) or up (remainder within the high
margin of `S`) stays inside the rounding interval of the double; when
both do, pick the closer, and on a tie the even digit — the selection
ECMAScript's `Number::toString` specifies. -/
def shortestDigits : Nat → Nat → Nat → Nat → Nat → Bool → List Nat
  | 0, _, _, _, _, _ => []
  | Nat.succ fuel, R0, S, mm0, mp0, inclusive =>
    let R := R0 * 10
    let mm := mm0 * 10
    let mp := mp0 * 10
    let d := R / S
    let r := R % S
    let low := if inclusive then r ≤ mm else r < mm
    let high := if inclusive then r + mp ≥ S else r + mp > S
    if low then
      if high then
        if 2 * r > S then [d + 1]
        else if 2 * r < S then [d]
        else if d % 2 = 0 then [d] else [d + 1]
      else [d]
    else if high then [d + 1]
    else d :: shortestDigits fuel r S mm mp inclusive

/-- Decimal digits of a natural number, most significant first
(fuel-driven; `fuel = n` suffices). -/
def natDecDigits : Nat → Nat → List Nat
  | 0, _ => []
  | Nat.succ fuel, n => if n < 10 then [n] else natDecDigits fuel (n / 10) ++ [n % 10]

/-- Strip trailing decimal zeros (fuel-driven; `fuel = n` suffices). -/
def stripZeros : Nat → Nat → Nat
  | 0, n => n
  | Nat.succ fuel, n => if n ≠ 0 ∧ n % 10 = 0 then stripZeros fuel (n / 10) else n

/-- The shortest decimal digits `d1 … dk` and decimal exponent `pos`
with `m * 2 ^ q = 0.d1…dk * 10 ^ pos`, the digits chosen as in
ECMAScript `Number::toString`: fewest digits whose rounding recovers the
double, then closest, then even.  The rounding interval's half-widths
are a half-ulp up and a half-ulp down (a quarter-ulp down at a power of
two above the subnormal range); its ends are attainable exactly when the
significand is even, since ties round to even. -/
def dragonFor (m : Nat) (q : Int) : List Nat × Int :=
  let tighten := m = natPow 2 52 ∧ q > -1074
  let inclusive := m % 2 = 0
  let (X, S0, mp, mm) :=
    if q ≥ 2 then
      (m * natPow 2 q.toNat, 1, natPow 2 (q.toNat - 1),
        if tighten then natPow 2 (q.toNat - 2) else natPow 2 (q.toNat - 1))
    else
      (m * 4, natPow 2 (2 - q).toNat, 2, if tighten then 1 else 2)
  match dragonScale 1200 X mp mm S0 0 inclusive with
  | (X1, mp1, mm1, S1, n) =>
    let ds := shortestDigits 60 X1 S1 mm1 mp1 inclusive
    let k := ds.length
    let total := ds.foldl (fun a d => a * 10 + d) 0
    if total = 0 then ([0], 1)
    else
      let total2 := stripZeros total total
      (natDecDigits total2 total2, n - (k : Int) + ((natDecDigits total total).length : Int))

def digitChar (d : Nat) : Char := Char.ofNat (48 + d)

def natDecString (n : Nat) : String := String.mk ((natDecDigits n n).map digitChar)

/-- ECMAScript number formatting from shortest digits `ds` and decimal
exponent `pos` (the value is `0.ds * 10 ^ pos`): plain digits with
trailing zeros up to 10^21, a decimal point inside or just before the
digits down to 10^-6, exponential notation outside that range. -/
def formatDigits (ds : List Nat) (pos : Int) : String :=
  let k : Int := (ds.length : Int)
  let s := String.mk (ds.map digitChar)
  if k ≤ pos ∧ pos ≤ 21 then
    s ++ String.mk (List.replicate (pos - k).toNat '0')
  else if 0 < pos ∧ pos ≤ 21 then
    String.mk ((ds.take pos.toNat).map digitChar) ++ "." ++
      String.mk ((ds.drop pos.toNat).map digitChar)
  else if -6 < pos ∧ pos ≤ 0 then
    "0." ++ String.mk (List.replicate (-pos).toNat '0') ++ s
  else
    let e := pos - 1
    let esign := if e < 0 then "-" else "+"
    (match ds with
     | [d] => String.mk [digitChar d]
     | d :: rest => String.mk [digitChar d] ++ "." ++ String.mk (rest.map digitChar)
     | [] => "0") ++ "e" ++ esign ++ natDecString e.natAbs

/-- Insert a key into an object under construction the way a JS object
literal does: a duplicate key keeps its first position but takes the last
value. -/
def objInsert (fields : List (List UInt16 × JsValue)) (k : List UInt16) (v : JsValue) :
    List (List UInt16 × JsValue) :=
  if fields.any (fun p => p.1 = k) then
    fields.map (fun p => if p.1 = k then (k, v) else p)
  else fields ++ [(k, v)]

def stripLit : List Char → List Char → Option (List Char)
  | [], cs => some cs
  | p :: ps, c :: cs => if c = p then stripLit ps cs else none
  | _ :: _, [] => none

mutual

/-- Recursive-descent JSON value: whitespace, then an object, array,
string, number, `true`, `false` or `null`.  Fuel decreases on every
mutual call; `2 * length + 2` is ample at top level. -/
def parseValue : Nat → List Char → Option (JsValue × List Char)
  | 0, _ => none
  | Nat.succ fuel, cs0 =>
    let cs := skipWs cs0
    match cs with
    | [] => none
    | c :: rest =>
      if c = '"' then
        match parseStringBody (rest.length + 1) rest with
        | some (body, rem) => some (.str body, rem)
        | none => none
      else if c = braceOpen then
        let rest2 := skipWs rest
        match rest2 with
        | c2 :: rest3 =>
          if c2 = braceClose then some (.obj [], rest3)
          else parseMembers fuel [] rest2
        | [] => none
      else if c = '[' then
        let rest2 := skipWs rest
        match rest2 with
        | ']' :: rest3 => some (.arr [], rest3)
        | _ => parseElems fuel [] rest2
      else if c = 't' then
        match stripLit ['r', 'u', 'e'] rest with
        | some rem => some (.bool true, rem)
        | none => none
      else if c = 'f' then
        match stripLit ['a', 'l', 's', 'e'] rest with
        | some rem => some (.bool false, rem)
        | none => none
      else if c = 'n' then
        match stripLit ['u', 'l', 'l'] rest with
        | some rem => some (.null, rem)
        | none => none
      else if c = '-' || c.isDigit then
        match parseNumberLit cs with
        | some (n, rem) => some (.num n, rem)
        | none => none
      else none

/-- Members of a JSON object after the opening brace (non-empty case). -/
def parseMembers : Nat → List (List UInt16 × JsValue) → List Char → Option (JsValue × List Char)
  | 0, _, _ => none
  | Nat.succ fuel, acc, cs0 =>
    let cs := skipWs cs0
    match cs with
    | '"' :: rest =>
      match parseStringBody (rest.length + 1) rest with
      | some (keyChars, r1) =>
        match skipWs r1 with
        | ':' :: r3 =>
          match parseValue fuel r3 with
          | some (v, r4) =>
            let acc2 := objInsert acc keyChars v
            match skipWs r4 with
            | ',' :: r6 => parseMembers fuel acc2 r6
            | c :: r6 => if c = braceClose then some (.obj acc2, r6) else none
            | [] => none
          | none => none
        | _ => none
      | none => none
    | _ => none

/-- Elements of a JSON array after the opening bracket (non-empty case). -/
def parseElems : Nat → List JsValue → List Char → Option (JsValue × List Char)
  | 0, _, _ => none
  | Nat.succ fuel, acc, cs =>
    match parseValue fuel cs with
    | some (v, r1) =>
      match skipWs r1 with
      | ',' :: r2 => parseElems fuel (acc ++ [v]) r2
      | ']' :: r2 => some (.arr (acc ++ [v]), r2)
      | _ => none
    | none => none

end

/-- `JSON.parse`: one complete value, with surrounding whitespace allowed
and the whole input consumed; any violation throws, modelled as `none`. -/
def jsonParse (s : String) : Option JsValue :=
  match parseValue (2 * s.length + 2) s.data with
  | some (v, rest) => if skipWs rest = [] then some v else none
  | none => none

/-- The WhiteSpace and LineTerminator set that `String.prototype.trim`
strips (the code points relevant to text payloads). -/
def jsWhitespaceChar (c : Char) : Bool :=
  c = ' ' || c = '\t' || c = '\n' || c = '\r' ||
  c = Char.ofNat 11 || c = Char.ofNat 12 ||
  c = Char.ofNat 160 || c = Char.ofNat 65279 ||
  c = Char.ofNat 8232 || c = Char.ofNat 8233 ||
  c = Char.ofNat 5760 || c = Char.ofNat 8239 || c = Char.ofNat 8287 ||
  c = Char.ofNat 12288 ||
  (8192 ≤ c.toNat && c.toNat ≤ 8202)

/-- `String.prototype.trim`. -/
def jsTrim (s : String) : String :=
  String.mk (((s.data.dropWhile jsWhitespaceChar).reverse.dropWhile jsWhitespaceChar).reverse)

def isPrefixList : List Char → List Char → Bool
  | [], _ => true
  | _ :: _, [] => false
  | p :: ps, c :: cs => p = c && isPrefixList ps cs

/-- `s.startsWith(p)`. -/
def jsStartsWith (s p : String) : Bool :=
  isPrefixList p.data s.data

/-- `s.slice(n)` for a non-negative index: the suffix from position `n`
(the positions relevant here are within the ASCII marker, where UTF-16
units and characters coincide). -/
def jsSlice (s : String) (n : Nat) : String :=
  String.mk (s.data.drop n)

/-- Split a character list at every occurrence of the separator;
separators at the ends produce empty groups, as `String.prototype.split`
does. -/
def splitOnChar (sep : Char) : List Char → List (List Char)
  | [] => [[]]
  | c :: cs =>
    if c = sep then [] :: splitOnChar sep cs
    else
      match splitOnChar sep cs with
      | [] => [[c]]
      | g :: gs => (c :: g) :: gs

/-- ASCII lower-casing, as applied to HTTP header names. -/
def charLower (c : Char) : Char :=
  if 65 ≤ c.toNat && c.toNat ≤ 90 then Char.ofNat (c.toNat + 32) else c

def strLower (s : String) : String :=
  String.mk (s.data.map charLower)

def strIntercalate (sep : String) : List String → String
  | [] => ""
  | [s] => s
  | s :: rest => s ++ sep ++ strIntercalate sep rest

/-- JavaScript truthiness of a parsed JSON value (`undefined` is handled
by the callers as `Option.none`).  A number is falsy exactly when its
binary64 value is zero — so a literal like `1e-400`, which underflows to
`0`, is falsy even though its digits are not all zero. -/
def jsTruthy : JsValue → Bool
  | .null => false
  | .bool b => b
  | .num n => (match jsNumberValue n with | .zero => false | _ => true)
  | .str units => units ≠ []
  | .arr _ => true
  | .obj _ => true

/-- `String(x)` for the binary64 value of a parsed number literal, per
ECMAScript `Number::toString`: `"0"` for either zero (the sign of `-0`
is dropped), `"Infinity"`/`"-Infinity"` on overflow, and otherwise the
shortest correctly rounding digits in ECMAScript's decimal or
exponential layout — so `1.50` prints `"1.5"`, `2e2` prints `"200"`,
`1e21` prints `"1e+21"`. -/
def jsNumToString (n : JsNumber) : String :=
  match jsNumberValue n with
  | .zero => "0"
  | .infinite => if n.neg then "-Infinity" else "Infinity"
  | .finite m q =>
    let core :=
      match dragonFor m q with
      | (ds, pos) => formatDigits ds pos
    if n.neg then "-" ++ core else core

/-- JS string coercion, as performed by `content += x`:
strings pass through, `true`/`false`/`null` print their names, numbers
print their binary64 value, arrays join their elements with commas (null
elements become empty), plain objects print `[object Object]`. -/
def jsToString : JsValue → List UInt16
  | .null => utf16 "null"
  | .bool b => if b then utf16 "true" else utf16 "false"
  | .num n => utf16 (jsNumToString n)
  | .str units => units
  | .arr xs => joinElems xs
  | .obj _ => utf16 "[object Object]"
where
  joinElems : List JsValue → List UInt16
    | [] => []
    | [x] =>
      match x with
      | .null => []
      | v => jsToString v
    | x :: xs =>
      (match x with
       | .null => []
       | v => jsToString v) ++ UInt16.ofNat 44 :: joinElems xs
termination_by structural v => v

/-- Property access `v.k` on a non-nullish value: an object looks up the
field; the keys the handler uses (`choices`, `delta`, `content`, `0`)
are not properties of JS strings, arrays, numbers or booleans, so every
other receiver yields `undefined` (`none`). -/
def jsGetField (v : JsValue) (k : List UInt16) : Option JsValue :=
  match v with
  | .obj fields => (fields.find? (fun p => p.1 = k)).map Prod.snd
  | _ => none

/-- Element access `v[0]` on a non-nullish value: arrays return their
first element, objects a field named `0`, a non-empty string its first
UTF-16 code unit as a one-unit string (so indexing an astral character
yields its lone high surrogate, as in JS). -/
def jsIndexZero (v : JsValue) : Option JsValue :=
  match v with
  | .arr xs => xs.head?
  | .obj fields => (fields.find? (fun p => p.1 = utf16 "0")).map Prod.snd
  | .str units =>
    match units with
    | [] => none
    | u :: _ => some (.str [u])
  | _ => none

/-- Optional chaining `x?.f`: `null` and `undefined` short-circuit to
`undefined`. -/
def optChain (x : Option JsValue) (f : JsValue → Option JsValue) : Option JsValue :=
  match x with
  | none => none
  | some .null => none
  | some v => f v

/-- The access chain `data.choices?.[0]?.delta?.content`.  The first step
is not optional in the source; when `data` is `null` the access throws,
which the surrounding empty `catch` turns into the same skip as an
`undefined` result, so we return `none` there as well. -/
def deltaContentOf (data : JsValue) : Option JsValue :=
  match data with
  | .null => none
  | _ =>
    optChain (optChain (optChain (jsGetField data (utf16 "choices")) jsIndexZero)
      (fun c0 => jsGetField c0 (utf16 "delta")))
      (fun d => jsGetField d (utf16 "content"))

/-- One iteration of `for (const line of chunk.split('\n'))`:
lines with the SSE data marker have the marker removed (`slice(5)`),
are trimmed and JSON-parsed; on success, if the delta-content chain is
truthy its string coercion is appended (the untruthy / missing / throwing
cases all fall through, the parse failure is swallowed by the empty
`catch`). -/
def processLine (content : List UInt16) (line : String) : List UInt16 :=
  if jsStartsWith line "data:" then
    match jsonParse (jsTrim (jsSlice line 5)) with
    | some data =>
      match deltaContentOf data with
      | some v => if jsTruthy v then content ++ jsToString v else content
      | none => content
    | none => content
  else content

/-- `chunk.split('\n')`. -/
def splitLines (chunk : String) : List String :=
  (splitOnChar '\n' chunk.data).map String.mk

/-- Processing of one decoded read: the chunk is split on newline on its
own, with no carry-over to or from neighbouring reads. -/
def processChunk (content : List UInt16) (chunk : String) : List UInt16 :=
  (splitLines chunk).foldl processLine content

/-- The whole read loop: `content` starts empty and each read's decoded
text is processed independently until `done`. -/
def aggregate (chunks : List String) : List UInt16 :=
  chunks.foldl processChunk []

/-- The outcome of `fetch('https://ai.enencloud.top/v1/chat/completions', ...)`:
either an upstream `Response` whose body yields the given decoded texts in
successive reads, or a rejected promise (network / connection failure). -/
inductive FetchOutcome where
  | success (headers : List (String × String)) (chunks : List String) : FetchOutcome
  | transportError : FetchOutcome
deriving Repr, DecidableEq

/-- The ambient effects the handler consumes: what the single `fetch`
would produce, how many times `fetch` has been called, and the values
`crypto.randomUUID()` and `Date.now()` would return. -/
structure World where
  fetchOutcome : FetchOutcome
  fetchCalls : Nat
  freshId : String
  now : Int
deriving Repr, DecidableEq

/-- Issuing the upstream fetch: returns the outcome and counts the call. -/
def doFetch (w : World) : FetchOutcome × World :=
  (w.fetchOutcome, { w with fetchCalls := w.fetchCalls + 1 })

/-- `Headers.get`: case-insensitive name match; several values for the
same name are joined with a comma and a space; absent yields `null`. -/
def headersGet (hs : List (String × String)) (k : String) : Option String :=
  match hs.filter (fun p => strLower p.1 = strLower k) with
  | [] => none
  | found => some (strIntercalate ", " (found.map Prod.snd))

def defaultModel : String := "@tx/deepseek-ai/deepseek-v3-0324"

/-- `upstream.headers.get('x-model') || '@tx/deepseek-ai/deepseek-v3-0324'`:
`null` *and the empty string* are falsy, so both fall back to the default. -/
def modelField (xModel : Option String) : String :=
  match xModel with
  | some m => if m = "" then defaultModel else m
  | none => defaultModel

structure EnvelopeMessage where
  role : String
  content : List UInt16
deriving Repr, DecidableEq

structure EnvelopeChoice where
  index : Nat
  message : EnvelopeMessage
  finish_reason : String
deriving Repr, DecidableEq

structure UsageBlock where
  prompt_tokens : Nat
  completion_tokens : Nat
  total_tokens : Nat
deriving Repr, DecidableEq

/-- The object passed to `JSON.stringify` in the 200 path.  Its shape is
fixed, so we keep it structured rather than serialized: `JSON.stringify`
is injective on it and every claim speaks about its fields. -/
structure ResponseEnvelope where
  id : String
  object : String
  created : Int
  model : String
  choices : List EnvelopeChoice
  usage : UsageBlock
deriving Repr, DecidableEq

/-- A `Response` body: the 405 path returns plain text, the 200 path the
serialized envelope. -/
inductive RespBody where
  | text (s : String) : RespBody
  | json (env : ResponseEnvelope) : RespBody
deriving Repr, DecidableEq

structure Response where
  status : Nat
  headers : List (String × String)
  body : RespBody
deriving Repr, DecidableEq

/-- `onRequest` from `functions/v1/chat/completions/index.ts`.
Non-POST methods return 405 before `fetch` is reached.  There is no
`try`/`catch` around the fetch or the read loop, so a rejected fetch
propagates out of the handler; we model that as `Except.error`. -/
def onRequest (method : String) (w : World) : Except String Response × World :=
  if method ≠ "POST" then
    (Except.ok { status := 405, headers := [], body := .text "Method Not Allowed" }, w)
  else
    let (outcome, w1) := doFetch w
    match outcome with
    | .transportError => (Except.error "fetch rejected: upstream transport failure", w1)
    | .success upHeaders chunks =>
      let content := aggregate chunks
      (Except.ok
        { status := 200
          headers := [("Content-Type", "application/json")]
          body := .json
            { id := w1.freshId
              object := "chat.completion"
              created := w1.now
              model := modelField (headersGet upHeaders "x-model")
              choices := [{ index := 0
                            message := { role := "assistant", content := content }
                            finish_reason := "stop" }]
              usage := { prompt_tokens := 0, completion_tokens := 0, total_tokens := 0 } } },
       w1)

/-- `onRequestPost` from `_functions/chat.ts`: the same pipeline without
the method guard. -/
def onRequestPost (w : World) : Except String Response × World :=
  let (outcome, w1) := doFetch w
  match outcome with
  | .transportError => (Except.error "fetch rejected: upstream transport failure", w1)
  | .success upHeaders chunks =>
    let content := aggregate chunks
    (Except.ok
      { status := 200
        headers := [("Content-Type", "application/json")]
        body := .json
          { id := w1.freshId
            object := "chat.completion"
            created := w1.now
            model := modelField (headersGet upHeaders "x-model")
            choices := [{ index := 0
                          message := { role := "assistant", content := content }
                          finish_reason := "stop" }]
            usage := { prompt_tokens := 0, completion_tokens := 0, total_tokens := 0 } } },
     w1)

/-- The content fragment a single line contributes: the appended text for
a data line whose payload parses and whose delta-content chain is truthy,
and the empty string in every other case.  This is the specification-side
reading of one loop iteration. -/
def lineFragment (line : String) : List UInt16 :=
  if jsStartsWith line "data:" then
    match jsonParse (jsTrim (jsSlice line 5)) with
    | some data =>
      match deltaContentOf data with
      | some v => if jsTruthy v then jsToString v else []
      | none => []
    | none => []
  else []

/-- Concatenation of a list of JS strings (unit sequences), in order. -/
def strConcat : List (List UInt16) → List UInt16
  | [] => []
  | s :: rest => s ++ strConcat rest

/-- All the lines the read loop visits, in order: each decoded read is
split on newline independently. -/
def streamLines (chunks : List String) : List String :=
  (chunks.map splitLines).flatten

/-- The fragment contributed by one decoded read. -/
def chunkFragment (chunk : String) : List UInt16 :=
  strConcat ((splitLines chunk).map lineFragment)

theorem strConcat_append (a b : List (List UInt16)) :
    strConcat (a ++ b) = strConcat a ++ strConcat b := by
  induction a with
  | nil => simp [strConcat]
  | cons s rest ih => simp [strConcat, ih]

/-- One loop iteration appends exactly the line's fragment. -/
theorem processLine_fragment (c : List UInt16) (line : String) :
    processLine c line = c ++ lineFragment line := by
  unfold processLine lineFragment
  by_cases h : jsStartsWith line "data:"
  · simp only [h, if_true]
    rcases hp : jsonParse (jsTrim (jsSlice line 5)) with _ | data
    · simp
    · rcases hd : deltaContentOf data with _ | v
      · simp [hd]
      · by_cases ht : jsTruthy v
        · simp [hd, ht]
        · simp [hd, ht]
  · simp [h]

theorem foldl_processLine (ls : List String) (c : List UInt16) :
    ls.foldl processLine c = c ++ strConcat (ls.map lineFragment) := by
  induction ls generalizing c with
  | nil => simp [strConcat]
  | cons l rest ih =>
    simp only [List.foldl_cons, List.map_cons, strConcat]
    rw [processLine_fragment, ih, List.append_assoc]

/-- One read appends exactly its chunk's fragment. -/
theorem processChunk_fragment (c : List UInt16) (chunk : String) :
    processChunk c chunk = c ++ chunkFragment chunk := by
  unfold processChunk chunkFragment
  exact foldl_processLine _ c

theorem foldl_processChunk (chunks : List String) (c : List UInt16) :
    chunks.foldl processChunk c = c ++ strConcat (chunks.map chunkFragment) := by
  induction chunks generalizing c with
  | nil => simp [strConcat]
  | cons ch rest ih =>
    simp only [List.foldl_cons, List.map_cons, strConcat]
    rw [processChunk_fragment, ih, List.append_assoc]

/-- The read loop computes the ordered concatenation of the per-line
fragments, where the lines are those obtained by splitting every read
independently. -/
theorem aggregate_fragments (chunks : List String) :
    aggregate chunks = strConcat ((streamLines chunks).map lineFragment) := by
  unfold aggregate streamLines
  rw [foldl_processChunk, List.nil_append]
  induction chunks with
  | nil => simp [strConcat]
  | cons ch rest ih =>
    simp only [List.map_cons, List.flatten_cons, strConcat, List.map_append]
    rw [strConcat_append, ih]
    rfl

/-- Lines without the data marker contribute nothing. -/
theorem lineFragment_of_not_data (line : String) (h : ¬ jsStartsWith line "data:") :
    lineFragment line = [] := by
  unfold lineFragment
  simp [h]

theorem strConcat_all_empty (ls : List (List UInt16)) (h : ∀ s ∈ ls, s = []) :
    strConcat ls = [] := by
  induction ls with
  | nil => rfl
  | cons s rest ih =>
    have hs := h s (List.mem_cons_self s rest)
    have hrest := ih (fun t ht => h t (List.mem_cons_of_mem s ht))
    simp [strConcat, hs, hrest]

/-- Full shape of the handler's answer on the success path. -/
theorem onRequest_post_success (w : World) (hs : List (String × String))
    (chunks : List String) (h : w.fetchOutcome = FetchOutcome.success hs chunks) :
    (onRequest "POST" w).1 =
      Except.ok
        { status := 200
          headers := [("Content-Type", "application/json")]
          body := RespBody.json
            { id := w.freshId
              object := "chat.completion"
              created := w.now
              model := modelField (headersGet hs "x-model")
              choices := [{ index := 0
                            message := { role := "assistant", content := aggregate chunks }
                            finish_reason := "stop" }]
              usage := { prompt_tokens := 0, completion_tokens := 0, total_tokens := 0 } } } := by
  simp [onRequest, doFetch, h]

/-- First read: a data line whose JSON record is cut off mid-object. -/
def chunkSplitA : String := "data: \x7b\"choices\":[\x7b\"delta\":\x7b\"content\":\"Hel"

/-- Second read: the rest of that record. -/
def chunkSplitB : String := "lo\"\x7d\x7d]\x7d\n"

/-- C1: the claim asserts the final content is independent of how the
upstream bytes are segmented into reads, a record split across two reads
being reassembled.  The loop decodes and line-splits every read
independently, with no carry-over buffer, so the spec's own boundary
scenario (`"Hel" / "lo..."`) yields the empty content when split and
`"Hello"` when delivered in one read: chunking does affect the output,
and the split record is dropped entirely. -/
theorem c1_split_record_dropped :
    aggregate [chunkSplitA, chunkSplitB] = utf16 "" ∧
    aggregate [chunkSplitA ++ chunkSplitB] = utf16 "Hello" := by
  exact ⟨by decide, by decide⟩

def transportWorld : World :=
  { fetchOutcome := FetchOutcome.transportError, fetchCalls := 0, freshId := "uuid-0", now := 0 }

/-- C2: the claim asserts a transport failure of the upstream fetch is
caught and surfaced as a 502-class response.  The handler has no
`try`/`catch` around the fetch or the read loop, so the rejection
propagates out of `onRequest`: the handler produces an error, not a
`Response` of any status. -/
theorem c2_transport_error_uncaught :
    (onRequest "POST" transportWorld).1 =
      Except.error "fetch rejected: upstream transport failure" := rfl

/-- A valid record, a malformed line, and another valid record, in one read. -/
def chunkMalformedBetween : String :=
  "data: \x7b\"choices\":[\x7b\"delta\":\x7b\"content\":\"A\"\x7d\x7d]\x7d\ndata: not-json\ndata: \x7b\"choices\":[\x7b\"delta\":\x7b\"content\":\"B\"\x7d\x7d]\x7d\n"

/-- C3: a data line whose payload fails to parse as JSON, or parses but
whose delta chain is absent, leaves the accumulator unchanged; the loop
visits every line regardless, so the final content is the ordered
concatenation of the per-line fragments; in particular a malformed line
between two valid records yields exactly the two valid fragments. -/
theorem c3_malformed_lines_skipped :
    (∀ (c : List UInt16) (line : String), jsStartsWith line "data:" →
        jsonParse (jsTrim (jsSlice line 5)) = none → processLine c line = c) ∧
    (∀ (c : List UInt16) (line : String) (d : JsValue), jsStartsWith line "data:" →
        jsonParse (jsTrim (jsSlice line 5)) = some d → deltaContentOf d = none →
        processLine c line = c) ∧
    (∀ chunks : List String,
        aggregate chunks = strConcat ((streamLines chunks).map lineFragment)) ∧
    aggregate [chunkMalformedBetween] = utf16 "AB" := by
  refine ⟨?_, ?_, aggregate_fragments, by decide⟩
  · intro c line h hp
    unfold processLine
    simp [h, hp]
  · intro c line d h hp hd
    unfold processLine
    simp [h, hp, hd]

theorem c3_witness :
    processLine (utf16 "x") "data: not-json" = utf16 "x" ∧
    processLine (utf16 "y") "data: \x7b\x7d" = utf16 "y" :=
  ⟨c3_malformed_lines_skipped.1 (utf16 "x") "data: not-json" (by decide) rfl,
   c3_malformed_lines_skipped.2.1 (utf16 "y") "data: \x7b\x7d" (JsValue.obj []) (by decide)
     rfl rfl⟩

/-- C4: a non-POST method returns 405 with the plain-text body before the
fetch expression is reached, so the upstream call count is untouched. -/
theorem c4_non_post_short_circuit :
    ∀ (m : String) (w : World), m ≠ "POST" →
      (onRequest m w).1 =
        Except.ok { status := 405, headers := [], body := RespBody.text "Method Not Allowed" } ∧
      (onRequest m w).2.fetchCalls = w.fetchCalls := by
  intro m w h
  constructor <;> simp [onRequest, h]

theorem c4_witness :
    (onRequest "GET" ⟨FetchOutcome.success [] [], 0, "u0", 0⟩).1 =
      Except.ok { status := 405, headers := [], body := RespBody.text "Method Not Allowed" } ∧
    (onRequest "GET" ⟨FetchOutcome.success [] [], 0, "u0", 0⟩).2.fetchCalls = 0 :=
  c4_non_post_short_circuit "GET" ⟨FetchOutcome.success [] [], 0, "u0", 0⟩ (by decide)

/-- C5: whenever the upstream fetch succeeds, the handler answers 200
with content-type `application/json` and the fixed envelope: object
`chat.completion`, exactly one choice at index 0 carrying role
`assistant`, the aggregated content and finish_reason `stop`, and all
usage counters zero. -/
theorem c5_success_envelope :
    ∀ (w : World) (hs : List (String × String)) (chunks : List String),
      w.fetchOutcome = FetchOutcome.success hs chunks →
      (onRequest "POST" w).1 =
        Except.ok
          { status := 200
            headers := [("Content-Type", "application/json")]
            body := RespBody.json
              { id := w.freshId
                object := "chat.completion"
                created := w.now
                model := modelField (headersGet hs "x-model")
                choices := [{ index := 0
                              message := { role := "assistant", content := aggregate chunks }
                              finish_reason := "stop" }]
                usage := { prompt_tokens := 0, completion_tokens := 0, total_tokens := 0 } } } :=
  fun w hs chunks h => onRequest_post_success w hs chunks h

theorem c5_witness :
    (onRequest "POST" ⟨FetchOutcome.success [] ["data: [DONE]\n"], 0, "u1", 7⟩).1 =
      Except.ok
        { status := 200
          headers := [("Content-Type", "application/json")]
          body := RespBody.json
            { id := "u1"
              object := "chat.completion"
              created := 7
              model := modelField (headersGet [] "x-model")
              choices := [{ index := 0
                            message := { role := "assistant",
                                         content := aggregate ["data: [DONE]\n"] }
                            finish_reason := "stop" }]
              usage := { prompt_tokens := 0, completion_tokens := 0, total_tokens := 0 } } } :=
  c5_success_envelope ⟨FetchOutcome.success [] ["data: [DONE]\n"], 0, "u1", 7⟩ [] ["data: [DONE]\n"] rfl

def emptyHeaderWorld : World :=
  { fetchOutcome := FetchOutcome.success [("x-model", "")] []
    fetchCalls := 0, freshId := "uuid-1", now := 0 }

/-- C6 counterexample: the claim says the envelope's model equals the
header's value whenever the header is present.  The source uses
`headers.get('x-model') || default`, and `||` treats the empty string as
falsy, so a *present but empty* header yields the default literal, not
the header's value. -/
theorem c6_empty_header_falls_back :
    headersGet [("x-model", "")] "x-model" = some "" ∧
    (onRequest "POST" emptyHeaderWorld).1 =
      Except.ok
        { status := 200
          headers := [("Content-Type", "application/json")]
          body := RespBody.json
            { id := "uuid-1", object := "chat.completion", created := 0
              model := defaultModel
              choices := [{ index := 0
                            message := { role := "assistant", content := utf16 "" }
                            finish_reason := "stop" }]
              usage := { prompt_tokens := 0, completion_tokens := 0, total_tokens := 0 } } } ∧
    defaultModel.length = 32 := by
  exact ⟨rfl, rfl, by decide⟩

/-- C6 (amended): the envelope's model equals the upstream `x-model`
header's value when that header is present *and non-empty*; when the
header is absent *or empty* it is the fixed default literal. -/
theorem c6_model_selection :
    ∀ (w : World) (hs : List (String × String)) (chunks : List String),
      w.fetchOutcome = FetchOutcome.success hs chunks →
      (∀ s, headersGet hs "x-model" = some s → s ≠ "" →
        (onRequest "POST" w).1 =
          Except.ok
            { status := 200
              headers := [("Content-Type", "application/json")]
              body := RespBody.json
                { id := w.freshId, object := "chat.completion", created := w.now
                  model := s
                  choices := [{ index := 0
                                message := { role := "assistant", content := aggregate chunks }
                                finish_reason := "stop" }]
                  usage := { prompt_tokens := 0, completion_tokens := 0,
                             total_tokens := 0 } } }) ∧
      ((headersGet hs "x-model" = none ∨ headersGet hs "x-model" = some "") →
        (onRequest "POST" w).1 =
          Except.ok
            { status := 200
              headers := [("Content-Type", "application/json")]
              body := RespBody.json
                { id := w.freshId, object := "chat.completion", created := w.now
                  model := defaultModel
                  choices := [{ index := 0
                                message := { role := "assistant", content := aggregate chunks }
                                finish_reason := "stop" }]
                  usage := { prompt_tokens := 0, completion_tokens := 0,
                             total_tokens := 0 } } }) := by
  intro w hs chunks hf
  constructor
  · intro s h hne
    rw [onRequest_post_success w hs chunks hf]
    have hm : modelField (headersGet hs "x-model") = s := by
      rw [h]; simp [modelField, hne]
    rw [hm]
  · intro h
    rw [onRequest_post_success w hs chunks hf]
    have hm : modelField (headersGet hs "x-model") = defaultModel := by
      rcases h with h | h <;> rw [h] <;> simp [modelField]
    rw [hm]

theorem c6_model_selection_witness :
    (onRequest "POST" ⟨FetchOutcome.success [("x-model", "m1")] [], 0, "u2", 3⟩).1 =
      Except.ok
        { status := 200
          headers := [("Content-Type", "application/json")]
          body := RespBody.json
            { id := "u2", object := "chat.completion", created := 3
              model := "m1"
              choices := [{ index := 0
                            message := { role := "assistant", content := aggregate [] }
                            finish_reason := "stop" }]
              usage := { prompt_tokens := 0, completion_tokens := 0, total_tokens := 0 } } } :=
  (c6_model_selection ⟨FetchOutcome.success [("x-model", "m1")] [], 0, "u2", 3⟩
    [("x-model", "m1")] [] rfl).1 "m1" rfl (by decide)

/-- A data record whose delta content is the boolean `true`. -/
def chunkTrueContent : String :=
  "data: \x7b\"choices\":[\x7b\"delta\":\x7b\"content\":true\x7d\x7d]\x7d\n"

/-- A data record whose delta content is the number literal `1.50`. -/
def chunkNum150 : String :=
  "data: \x7b\"choices\":[\x7b\"delta\":\x7b\"content\":1.50\x7d\x7d]\x7d\n"

/-- A data record whose delta content is the number literal `2e2`. -/
def chunkNum2e2 : String :=
  "data: \x7b\"choices\":[\x7b\"delta\":\x7b\"content\":2e2\x7d\x7d]\x7d\n"

/-- A data record whose delta content is `1e-400`, which underflows to
the double `0`. -/
def chunkNumTiny : String :=
  "data: \x7b\"choices\":[\x7b\"delta\":\x7b\"content\":1e-400\x7d\x7d]\x7d\n"

set_option maxRecDepth 100000 in
/-- C7 counterexample: the claim says a non-string `content` contributes
nothing.  The source tests JS truthiness, not string-ness, so a payload
with `content: true` appends the coercion `"true"`; a number appends the
decimal rendering of its binary64 value (`1.50` appends `"1.5"`, `2e2`
appends `"200"`), while `1e-400` rounds to the falsy double `0` and is
skipped. -/
theorem c7_truthy_nonstring_appended :
    aggregate [chunkTrueContent] = utf16 "true" ∧ (utf16 "true").length = 4 ∧
    aggregate [chunkNum150] = utf16 "1.5" ∧
    aggregate [chunkNum2e2] = utf16 "200" ∧
    aggregate [chunkNumTiny] = utf16 "" := by
  exact ⟨by decide, by decide, by decide, by decide, by decide⟩

/-- C7 (amended): a successfully parsed payload's fragment is appended
iff `choices[0].delta.content` is *truthy*; a non-empty string appends
itself, the empty string contributes nothing, a missing chain contributes
nothing, a number appends the decimal rendering of its binary64 value
exactly when that value is non-zero, and any other truthy value appends
its JS string coercion.  No shape terminates processing. -/
theorem c7_truthy_append :
    ∀ (c : List UInt16) (line : String) (d : JsValue),
      jsStartsWith line "data:" →
      jsonParse (jsTrim (jsSlice line 5)) = some d →
      (processLine c line =
        c ++ (match deltaContentOf d with
              | some v => if jsTruthy v then jsToString v else []
              | none => [])) ∧
      (∀ u, deltaContentOf d = some (JsValue.str u) →
        (u ≠ [] → processLine c line = c ++ u) ∧
        (u = [] → processLine c line = c)) ∧
      (∀ nn, deltaContentOf d = some (JsValue.num nn) →
        (jsNumberValue nn = Binary64.zero → processLine c line = c) ∧
        (jsNumberValue nn ≠ Binary64.zero →
          processLine c line = c ++ utf16 (jsNumToString nn))) ∧
      (deltaContentOf d = none → processLine c line = c) := by
  intro c line d h hp
  refine ⟨?_, ?_, ?_, ?_⟩
  · unfold processLine
    simp only [h, if_true, hp]
    rcases hd : deltaContentOf d with _ | v
    · simp
    · by_cases ht : jsTruthy v
      · simp [ht]
      · simp [ht]
  · intro u hu
    constructor
    · intro hne
      unfold processLine
      simp only [h, if_true, hp, hu]
      have ht : jsTruthy (JsValue.str u) = true := by simp [jsTruthy, hne]
      simp [ht, jsToString]
    · intro he
      subst he
      unfold processLine
      simp [h, hp, hu, jsTruthy]
  · intro nn hn
    constructor
    · intro hz
      unfold processLine
      have ht : jsTruthy (JsValue.num nn) = false := by simp [jsTruthy, hz]
      simp [h, hp, hn, ht]
    · intro hz
      unfold processLine
      have ht : jsTruthy (JsValue.num nn) = true := by
        cases hv : jsNumberValue nn with
        | zero => exact absurd hv hz
        | finite m q => simp [jsTruthy, hv]
        | infinite => simp [jsTruthy, hv]
      simp [h, hp, hn, ht, jsToString]
  · intro hd
    unfold processLine
    simp [h, hp, hd]

def lineContentA : String := "data: \x7b\"choices\":[\x7b\"delta\":\x7b\"content\":\"A\"\x7d\x7d]\x7d"

def parsedContentA : JsValue :=
  JsValue.obj [(utf16 "choices",
    JsValue.arr [JsValue.obj [(utf16 "delta",
      JsValue.obj [(utf16 "content", JsValue.str (utf16 "A"))])]])]

def lineNum150 : String := "data: \x7b\"choices\":[\x7b\"delta\":\x7b\"content\":1.50\x7d\x7d]\x7d"

def num150 : JsNumber := ⟨false, ['1'], ['5', '0'], false, []⟩

def parsedNum150 : JsValue :=
  JsValue.obj [(utf16 "choices",
    JsValue.arr [JsValue.obj [(utf16 "delta",
      JsValue.obj [(utf16 "content", JsValue.num num150)])]])]

theorem c7_truthy_append_witness :
    processLine (utf16 "x") lineContentA = utf16 "x" ++ utf16 "A" ∧
    processLine (utf16 "x") lineNum150 = utf16 "x" ++ utf16 "1.5" :=
  ⟨((c7_truthy_append (utf16 "x") lineContentA parsedContentA (by decide) rfl).2.1
      (utf16 "A") rfl).1 (by decide),
   ((c7_truthy_append (utf16 "x") lineNum150 parsedNum150 (by decide) rfl).2.2.1
      num150 rfl).2 (by decide)⟩

/-- C8: the `[DONE]` sentinel is never special-cased: the line is just
another record whose payload fails `JSON.parse`, so it contributes
nothing, and the loop keeps consuming every later read — termination
comes only from the transport's end of body (the end of the chunk
list). -/
theorem c8_done_sentinel_not_special :
    (∀ c, processLine c "data: [DONE]" = c) ∧
    (∀ (xs ys : List String),
      aggregate (xs ++ "data: [DONE]" :: ys) = aggregate (xs ++ ys)) := by
  have hfrag : lineFragment "data: [DONE]" = [] := rfl
  constructor
  · intro c
    rw [processLine_fragment, hfrag, List.append_nil]
  · intro xs ys
    rw [aggregate_fragments, aggregate_fragments]
    unfold streamLines
    simp only [List.map_append, List.map_cons, List.flatten_append, List.flatten_cons,
      strConcat_append]
    have hd : strConcat ((splitLines "data: [DONE]").map lineFragment) = [] := rfl
    rw [hd, List.nil_append]

/-- Fields of two responses other than id and created agree. -/
def respSimilar (r1 r2 : Response) : Prop :=
  r1.status = r2.status ∧ r1.headers = r2.headers ∧
  match r1.body, r2.body with
  | RespBody.text s1, RespBody.text s2 => s1 = s2
  | RespBody.json e1, RespBody.json e2 =>
    e1.object = e2.object ∧ e1.model = e2.model ∧
    e1.choices = e2.choices ∧ e1.usage = e2.usage
  | _, _ => False

def exceptSimilar : Except String Response → Except String Response → Prop
  | Except.ok r1, Except.ok r2 => respSimilar r1 r2
  | Except.error e1, Except.error e2 => e1 = e2
  | _, _ => False

/-- C9: with the upstream outcome fixed (same headers and chunk
sequence), two executions differ at most in the freshly generated id and
the timestamp: status, headers, content, model, choices and usage are
determined by the inputs.  This holds for both handler variants. -/
theorem c9_deterministic_up_to_id_created :
    ∀ (m : String) (w1 w2 : World),
      w1.fetchOutcome = w2.fetchOutcome →
      exceptSimilar (onRequest m w1).1 (onRequest m w2).1 ∧
      exceptSimilar (onRequestPost w1).1 (onRequestPost w2).1 := by
  intro m w1 w2 h
  constructor
  · by_cases hm : m = "POST"
    · subst hm
      cases ho : w1.fetchOutcome with
      | success hs chunks =>
        have h2 : w2.fetchOutcome = FetchOutcome.success hs chunks := by rw [← h, ho]
        rw [onRequest_post_success w1 hs chunks ho, onRequest_post_success w2 hs chunks h2]
        simp [exceptSimilar, respSimilar]
      | transportError =>
        have h2 : w2.fetchOutcome = FetchOutcome.transportError := by rw [← h, ho]
        simp [onRequest, doFetch, ho, h2, exceptSimilar]
    · simp [onRequest, hm, exceptSimilar, respSimilar]
  · cases ho : w1.fetchOutcome with
    | success hs chunks =>
      have h2 : w2.fetchOutcome = FetchOutcome.success hs chunks := by rw [← h, ho]
      simp [onRequestPost, doFetch, ho, h2, exceptSimilar, respSimilar]
    | transportError =>
      have h2 : w2.fetchOutcome = FetchOutcome.transportError := by rw [← h, ho]
      simp [onRequestPost, doFetch, ho, h2, exceptSimilar]

theorem c9_witness :
    exceptSimilar (onRequest "POST" ⟨FetchOutcome.success [] [], 0, "a1", 1⟩).1
        (onRequest "POST" ⟨FetchOutcome.success [] [], 5, "b2", 99⟩).1 ∧
    exceptSimilar (onRequestPost ⟨FetchOutcome.success [] [], 0, "a1", 1⟩).1
        (onRequestPost ⟨FetchOutcome.success [] [], 5, "b2", 99⟩).1 :=
  c9_deterministic_up_to_id_created "POST"
    ⟨FetchOutcome.success [] [], 0, "a1", 1⟩
    ⟨FetchOutcome.success [] [], 5, "b2", 99⟩ rfl

/-- C10: a stream that ends without any line carrying the data marker
(including the completely empty stream) still produces a 200 envelope
whose message content is the empty string. -/
theorem c10_data_free_stream_ok :
    ∀ (w : World) (hs : List (String × String)) (chunks : List String),
      w.fetchOutcome = FetchOutcome.success hs chunks →
      (∀ line ∈ streamLines chunks, ¬ jsStartsWith line "data:") →
      (onRequest "POST" w).1 =
        Except.ok
          { status := 200
            headers := [("Content-Type", "application/json")]
            body := RespBody.json
              { id := w.freshId, object := "chat.completion", created := w.now
                model := modelField (headersGet hs "x-model")
                choices := [{ index := 0
                              message := { role := "assistant", content := utf16 "" }
                              finish_reason := "stop" }]
                usage := { prompt_tokens := 0, completion_tokens := 0,
                           total_tokens := 0 } } } := by
  intro w hs chunks hf hnone
  rw [onRequest_post_success w hs chunks hf]
  have hagg : aggregate chunks = utf16 "" := by
    rw [aggregate_fragments]
    apply strConcat_all_empty
    intro s hsmem
    rcases List.mem_map.mp hsmem with ⟨line, hline, rfl⟩
    exact lineFragment_of_not_data line (hnone line hline)
  rw [hagg]

theorem c10_witness :
    (onRequest "POST"
        ⟨FetchOutcome.success [] ["hello\n", ": keepalive\n\n"], 0, "u3", 4⟩).1 =
      Except.ok
        { status := 200
          headers := [("Content-Type", "application/json")]
          body := RespBody.json
            { id := "u3", object := "chat.completion", created := 4
              model := modelField (headersGet [] "x-model")
              choices := [{ index := 0
                            message := { role := "assistant", content := utf16 "" }
                            finish_reason := "stop" }]
              usage := { prompt_tokens := 0, completion_tokens := 0,
                         total_tokens := 0 } } } :=
  c10_data_free_stream_ok ⟨FetchOutcome.success [] ["hello\n", ": keepalive\n\n"], 0, "u3", 4⟩
    [] ["hello\n", ": keepalive\n\n"] rfl (by decide)
